/-
  Verification of the FinishFirst browser extension core
  (focus-session state machine, whitelist normalization, block decision
  engine, navigation interception), shallowly embedded from the
  TypeScript sources in src/shared/storage.ts, src/shared/whitelist.ts
  and src/background/index.ts.

  Timestamps and counters are JS numbers, modelled as `Int`
  (`Math.floor (a / b)` with positive `b` is `Int.fdiv`).  The
  asynchronous storage API is modelled by explicit state passing over a
  `Store` record holding the five persisted keys; a read that performs a
  defensive write-back returns the updated store.  `URLPattern`
  compilation (an external library) is a parameter
  `compile : String → Option (String → Bool)` returning the compiled
  matcher, or `none` when the constructor throws.
-/
import Mathlib

/-- A single goal/task (storage.ts, `Goal`). -/
structure Goal where
  id : String
  text : String
  createdAt : Int
  completedAt : Option Int := none
deriving Repr, DecidableEq

/-- Whitelist pattern entry (storage.ts, `WhitelistPattern`). -/
structure WhitelistPattern where
  id : String
  pattern : String
  label : String
  enabled : Bool
deriving Repr, DecidableEq

/-- Focus session data (storage.ts, `FocusSession`). -/
structure FocusSession where
  active : Bool
  startedAt : Option Int
  currentGoal : Option Goal
  breakUntil : Option Int
deriving Repr, DecidableEq

/-- Daily statistics (storage.ts, `DailyStats`). -/
structure DailyStats where
  date : String
  completedTasks : Int
  focusMinutes : Int
  blockedAttempts : Int
deriving Repr, DecidableEq

/-- Settings (storage.ts, `StorageSchema.settings`): only `strictMode`
and `theme` exist in the code. -/
structure Settings where
  strictMode : Bool
  theme : String
deriving Repr, DecidableEq

/-- The flat persisted namespace (storage.ts, `StorageSchema`); `none`
models a key absent from `browserAPI.storage.local`. -/
structure Store where
  settings : Option Settings
  whitelist : Option (List WhitelistPattern)
  focusSession : Option FocusSession
  stats : Option DailyStats
  completedGoals : Option (List Goal)
deriving Repr, DecidableEq

/-- Default whitelist patterns (storage.ts, `defaultWhitelist`). -/
def defaultWhitelist : List WhitelistPattern :=
  [ ⟨"chrome-internal", "chrome://*", "Chrome Internal Pages", true⟩,
    ⟨"chrome-extension", "chrome-extension://*/*", "Chrome Extensions", true⟩,
    ⟨"edge-internal", "edge://*", "Edge Internal Pages", true⟩,
    ⟨"moz-extension", "moz-extension://*/*", "Firefox Extensions", true⟩ ]

/-- Legacy pattern migration table (storage.ts, `legacyDefaultPatterns`). -/
def legacyDefaultPatterns : String → Option (List String × String)
  | "chrome-internal" => some (["^chrome://"], "chrome://*")
  | "chrome-extension" => some (["^chrome-extension://"], "chrome-extension://*/*")
  | "edge-internal" => some (["^edge://"], "edge://*")
  | _ => none

/-- One entry of the first `normalizeWhitelist` loop: migrate a stored
pattern whose id is a legacy default carrying a legacy pattern string.
Returns the (possibly updated) entry and whether a fresh object was
created (the TS reference-inequality `updated !== pattern`). -/
def migrateEntry (p : WhitelistPattern) : WhitelistPattern × Bool :=
  match legacyDefaultPatterns p.id with
  | some (legacy, current) =>
      if legacy.contains p.pattern then ({ p with pattern := current }, true)
      else (p, false)
  | none => (p, false)

/-- First loop of `normalizeWhitelist` (storage.ts): migrate legacy
patterns and drop entries whose id was already seen. -/
def normalizeScan (seen : List String) :
    List WhitelistPattern → List WhitelistPattern × List String × Bool
  | [] => ([], seen, false)
  | p :: rest =>
      let u := (migrateEntry p).1
      let hit := (migrateEntry p).2
      if seen.contains u.id then
        let r := normalizeScan seen rest
        (r.1, r.2.1, hit || r.2.2)
      else
        let r := normalizeScan (u.id :: seen) rest
        (u :: r.1, r.2.1, hit || r.2.2)

/-- Second loop of `normalizeWhitelist` (storage.ts): append any default
entry whose id is still missing. -/
def addDefaults (seen : List String) :
    List WhitelistPattern → List WhitelistPattern × List String × Bool
  | [] => ([], seen, false)
  | d :: rest =>
      if seen.contains d.id then addDefaults seen rest
      else
        let r := addDefaults (d.id :: seen) rest
        (d :: r.1, r.2.1, true)

/-- storage.ts, `normalizeWhitelist`. -/
def normalizeWhitelist (stored : Option (List WhitelistPattern)) :
    List WhitelistPattern × Bool :=
  match stored with
  | none => (defaultWhitelist, true)
  | some l =>
      let r1 := normalizeScan [] l
      let r2 := addDefaults r1.2.1 defaultWhitelist
      (r1.1 ++ r2.1, r1.2.2 || r2.2.2)

/-- Default stored values (storage.ts, `storageDefaults`); the default
stats date is the day the module was loaded, taken here to be `today`. -/
def defaultSettings : Settings := ⟨false, "system"⟩

def defaultSession : FocusSession := ⟨false, none, none, none⟩

def defaultStats (today : String) : DailyStats := ⟨today, 0, 0, 0⟩

/-- storage.ts, `getStorageWithDefault('settings')`: plain `result ?? default`. -/
def getSettingsD (st : Store) : Settings :=
  st.settings.getD defaultSettings

/-- storage.ts, `getStorageWithDefault('focusSession')`: self-heals a stored session
with `active && !currentGoal` by writing back
`active=false, startedAt=null, breakUntil=null` (storage.ts 194-206). -/
def getFocusSessionD (st : Store) : FocusSession × Store :=
  match st.focusSession with
  | none => (defaultSession, st)
  | some s =>
      if s.active && s.currentGoal.isNone then
        let n : FocusSession := { s with active := false, startedAt := none, breakUntil := none }
        (n, { st with focusSession := some n })
      else (s, st)

/-- storage.ts, `getStorageWithDefault('whitelist')`: normalize, writing back when
the normalization changed something (storage.ts 208-214). -/
def getWhitelistD (st : Store) : List WhitelistPattern × Store :=
  let (l, changed) := normalizeWhitelist st.whitelist
  (l, if changed then { st with whitelist := some l } else st)

/-- storage.ts, `getStorageWithDefault('stats')`: lazy date rollover — reset counts
when the stored date is not today (storage.ts 184-192). -/
def getStatsD (st : Store) (today : String) : DailyStats × Store :=
  match st.stats with
  | none => (defaultStats today, st)
  | some s =>
      if s.date ≠ today then
        let fresh := defaultStats today
        (fresh, { st with stats := some fresh })
      else (s, st)

/-- storage.ts, `getStorageWithDefault('completedGoals')`. -/
def getCompletedGoalsD (st : Store) : List Goal :=
  st.completedGoals.getD []

/-- storage.ts, `updateStorage('focusSession', {active:false, startedAt:null,
breakUntil:null})` — read-modify-write, merging the three fields into
the freshly read session (storage.ts `updateStorage`). -/
def updateFocusSessionOff (st : Store) : Store :=
  let (cur, st1) := getFocusSessionD st
  let merged : FocusSession :=
    { cur with active := false, startedAt := none, breakUntil := none }
  { st1 with focusSession := some merged }

/-- JS `String.prototype.trim`, as a structural recursion over the
character list (whitespace stripped from both ends). -/
def strTrim (s : String) : String :=
  ⟨((s.data.dropWhile Char.isWhitespace).reverse.dropWhile Char.isWhitespace).reverse⟩

/-- JS `String.prototype.startsWith`. -/
def strStarts (s p : String) : Bool :=
  p.data.isPrefixOf s.data

/-- Substring search on character lists: does `needle` occur
contiguously in the haystack? -/
def listHasInfix (needle : List Char) : List Char → Bool
  | [] => needle.isEmpty
  | c :: rest => needle.isPrefixOf (c :: rest) || listHasInfix needle rest

/-- JS `String.prototype.includes`. -/
def strHasSub (s sub : String) : Bool :=
  listHasInfix sub.data s.data

/-- whitelist.ts, `compilePattern`: trim, reject empty, then hand to the
`URLPattern` constructor (the `compile` parameter, `none` = throw). -/
def compilePattern (compile : String → Option (String → Bool)) (pattern : String) :
    Option (String → Bool) :=
  let trimmed := strTrim pattern
  if trimmed = "" then none else compile trimmed

/-- whitelist.ts, `isUrlWhitelisted`, instrumented with the list of
`console.warn` messages it emits (one per enabled pattern whose compile
fails, in scan order, stopping at the first match). -/
def isUrlWhitelistedLog (compile : String → Option (String → Bool))
    (url : String) : List WhitelistPattern → Bool × List String
  | [] => (false, [])
  | p :: rest =>
      if !p.enabled then isUrlWhitelistedLog compile url rest
      else
        match compilePattern compile p.pattern with
        | none =>
            let (b, w) := isUrlWhitelistedLog compile url rest
            (b, p.pattern :: w)
        | some t => if t url then (true, []) else isUrlWhitelistedLog compile url rest

/-- whitelist.ts, `isUrlWhitelisted` (result only). -/
def isUrlWhitelisted (compile : String → Option (String → Bool))
    (url : String) (patterns : List WhitelistPattern) : Bool :=
  (isUrlWhitelistedLog compile url patterns).1

/-- whitelist.ts, `isValidPattern`. -/
def isValidPattern (compile : String → Option (String → Bool)) (pattern : String) : Bool :=
  (compilePattern compile pattern).isSome

/-- background/index.ts, `shouldBlock`: read the session (a self-healing
read), block only when `active` with a `currentGoal`; on the
active-without-goal anomaly, write the session off and allow. -/
def shouldBlock (st : Store) : Bool × Store :=
  let (session, st1) := getFocusSessionD st
  if !session.active then (false, st1)
  else if session.currentGoal.isNone then
    let st2 :=
      if session.active || session.breakUntil.isSome then updateFocusSessionOff st1
      else st1
    (false, st2)
  else (true, st1)

/-- A block decision: `blocked` plus the optional `reason` string
(`none` models an absent `reason` property). -/
structure Decision where
  blocked : Bool
  reason : Option String
deriving Repr, DecidableEq

/-- The check `url.includes('blocked/blocked.html')`. -/
def containsBlockedPage (url : String) : Bool :=
  strHasSub url "blocked/blocked.html"

/-- background/index.ts, `shouldBlockUrl`. -/
def shouldBlockUrl (compile : String → Option (String → Bool))
    (url : String) (st : Store) : Decision × Store :=
  if url = "" || url = "about:blank" then (⟨false, some "empty-url"⟩, st)
  else if containsBlockedPage url then (⟨false, some "blocked-page"⟩, st)
  else if url = "about:newtab" || url = "chrome://newtab/" || url = "edge://newtab/" then
    let (wl, st1) := getWhitelistD st
    if isUrlWhitelisted compile url wl then (⟨false, some "whitelisted"⟩, st1)
    else
      let (b, st2) := shouldBlock st1
      if !b then (⟨false, some "focus-inactive"⟩, st2)
      else (⟨true, some "newtab-blocked"⟩, st2)
  else
    let (b, st1) := shouldBlock st
    if !b then (⟨false, some "focus-inactive"⟩, st1)
    else
      let (wl, st2) := getWhitelistD st1
      if isUrlWhitelisted compile url wl then (⟨false, some "whitelisted"⟩, st2)
      else (⟨true, none⟩, st2)

/-- background/index.ts, `updateBadge`: only its storage effect matters
here — a (self-healing) read of the focus session.  The badge text and
color writes are external side effects with no stored state. -/
def updateBadgeRead (st : Store) : Store :=
  (getFocusSessionD st).2

/-- background/index.ts, `startFocus`: build a fresh goal (`generateId`
and `Date.now()` are the `gid`/`now` parameters), overwrite the stored
session, refresh the badge, and return the new session. -/
def startFocus (st : Store) (now : Int) (gid : String) (goalText : String) :
    FocusSession × Store :=
  let goal : Goal := ⟨gid, goalText, now, none⟩
  let session : FocusSession := ⟨true, some now, some goal, none⟩
  let st1 := { st with focusSession := some session }
  (session, updateBadgeRead st1)

/-- A browser tab as the handlers consume it: `tabs.get`/`tabs.query`
result with its id, optional URL and active flag. -/
structure Tab where
  id : Int
  url : Option String
  active : Bool
deriving Repr, DecidableEq

/-- The four browser-internal scheme checks shared by the tab
handlers (`chrome://`, `about:`, `edge://`, `moz-extension://`). -/
def isSpecialScheme (u : String) : Bool :=
  strStarts u "chrome://" || strStarts u "about:" ||
    strStarts u "edge://" || strStarts u "moz-extension://"

/-- background/index.ts, `checkCurrentTabOnFocusStart`.  A redirect side
effect is recorded as `some (tabId, originalUrl)`; the actual navigation
target is `getBlockedPageUrl originalUrl`, a pure function of the
original URL supplied by the browser runtime. -/
def checkCurrentTabOnFocusStart (compile : String → Option (String → Bool))
    (activeTab : Option Tab) (st : Store) : Store × Option (Int × String) :=
  match activeTab with
  | none => (st, none)
  | some tab =>
      match tab.url with
      | none => (st, none)
      | some u =>
          if isSpecialScheme u then (st, none)
          else
            let (d, st1) := shouldBlockUrl compile u st
            if d.blocked && tab.id ≠ 0 then (st1, some (tab.id, u))
            else (st1, none)

/-- background/index.ts, the `START_FOCUS` message handler: start the
session, then check the currently active tab. Returns
`((success, session), store, redirect)`. -/
def startFocusHandler (compile : String → Option (String → Bool))
    (activeTab : Option Tab) (st : Store) (now : Int) (gid : String)
    (goalText : String) : (Bool × FocusSession) × Store × Option (Int × String) :=
  let (session, st1) := startFocus st now gid goalText
  let (st2, redirect) := checkCurrentTabOnFocusStart compile activeTab st1
  ((true, session), st2, redirect)

/-- background/index.ts, `completeTask`: no-op returning `false` unless
the session is active with a goal; otherwise add the elapsed whole
minutes and the completed task to the stats, append the goal (stamped
`completedAt=now`) to history, clear the session, refresh the badge. -/
def completeTask (st : Store) (now : Int) (today : String) : Bool × Store :=
  let (session, st1) := getFocusSessionD st
  match session.currentGoal with
  | none => (false, st1)
  | some g =>
      if !session.active then (false, st1)
      else
        let focusDuration : Int :=
          match session.startedAt with
          | some t => (now - t).fdiv 60000
          | none => 0
        let (stats, st2) := getStatsD st1 today
        let (cur, st3) := getStatsD st2 today
        let mergedStats : DailyStats :=
          { cur with completedTasks := stats.completedTasks + 1,
                     focusMinutes := stats.focusMinutes + focusDuration }
        let st4 := { st3 with stats := some mergedStats }
        let completedGoal : Goal := { g with completedAt := some now }
        let history := getCompletedGoalsD st4
        let st5 := { st4 with completedGoals := some (history ++ [completedGoal]) }
        let (curS, st6) := getFocusSessionD st5
        let clearedS : FocusSession :=
          { curS with active := false, startedAt := none,
                      currentGoal := none, breakUntil := none }
        let st7 := { st6 with focusSession := some clearedS }
        (true, updateBadgeRead st7)

/-- background/index.ts, `cancelFocus`: refuse under strict mode, else
overwrite the session with the all-clear record and refresh the badge. -/
def cancelFocus (st : Store) : Store :=
  let settings := getSettingsD st
  if settings.strictMode then st
  else
    let cleared : FocusSession := ⟨false, none, none, none⟩
    updateBadgeRead { st with focusSession := some cleared }

/-- background/index.ts, the `CANCEL_FOCUS` message handler: its own
strict-mode check decides the `success` flag, then it delegates. -/
def cancelFocusHandler (st : Store) : Bool × Store :=
  let settings := getSettingsD st
  if settings.strictMode then (false, st)
  else (true, cancelFocus st)

/-- The `webNavigation.onCommitted` event details. -/
structure NavDetails where
  frameId : Int
  tabId : Int
  url : String
deriving Repr, DecidableEq

/-- background/index.ts, `handleNavigation`: main-frame commits only;
on a blocked decision, bump `blockedAttempts` (a read followed by a
read-merge-write) and redirect the tab to the blocked page. -/
def handleNavigation (compile : String → Option (String → Bool))
    (details : NavDetails) (st : Store) (today : String) :
    Store × Option (Int × String) :=
  if details.frameId ≠ 0 then (st, none)
  else
    let (d, st1) := shouldBlockUrl compile details.url st
    if d.blocked then
      let (stats, st2) := getStatsD st1 today
      let (cur, st3) := getStatsD st2 today
      let mergedStats : DailyStats :=
        { cur with blockedAttempts := stats.blockedAttempts + 1 }
      let st4 := { st3 with stats := some mergedStats }
      (st4, some (details.tabId, details.url))
    else (st1, none)

/-- background/index.ts, `handleTabActivated`: bail out unless blocking
is active; fetch the tab (`tabs` models `browserAPI.tabs.get`); skip
missing URLs, special schemes and the blocked page; otherwise decide
and redirect.  No stats are touched on this path. -/
def handleTabActivated (compile : String → Option (String → Bool))
    (tabs : Int → Option Tab) (tabId : Int) (st : Store) :
    Store × Option (Int × String) :=
  let (b, st1) := shouldBlock st
  if !b then (st1, none)
  else
    match tabs tabId with
    | none => (st1, none)
    | some tab =>
        match tab.url with
        | none => (st1, none)
        | some u =>
            if isSpecialScheme u || containsBlockedPage u then (st1, none)
            else
              let (d, st2) := shouldBlockUrl compile u st1
              if d.blocked then (st2, some (tab.id, u))
              else (st2, none)

/-- background/index.ts, `handleTabUpdate`: only complete loads with a
URL change, only while blocking is active, only background tabs, and
never special schemes or the blocked page; the decision is computed for
logging only — no redirect and no stats update. -/
def handleTabUpdate (compile : String → Option (String → Bool))
    (changeStatus : Option String) (changeUrl : Option String) (tab : Tab)
    (st : Store) : Store :=
  if changeStatus ≠ some "complete" || changeUrl.isNone then st
  else
    let (b, st1) := shouldBlock st
    if !b then st1
    else if tab.active then st1
    else
      match changeUrl with
      | none => st1
      | some u =>
          if isSpecialScheme u || containsBlockedPage u then st1
          else (shouldBlockUrl compile u st1).2

/-- background/index.ts, the `REMOVE_WHITELIST` message handler: filter
the just-read (normalized) list by id and store the result. -/
def removeWhitelistHandler (st : Store) (rid : String) : Bool × Store :=
  let (wl, st1) := getWhitelistD st
  (true, { st1 with whitelist := some (wl.filter (fun p => p.id ≠ rid)) })

/-! Concrete fixtures used by closed evaluation theorems. -/

/-- A compile oracle under which every pattern is invalid (the
`URLPattern` constructor always throws). -/
def noCompile : String → Option (String → Bool) := fun _ => none

def goal0 : Goal := ⟨"g1", "Write report", 0, none⟩

/-- A store holding a Focusing session started at time 0. -/
def focusingStore : Store :=
  ⟨some ⟨false, "light"⟩, some [], some ⟨true, some 0, some goal0, none⟩,
    some ⟨"2026-10-12", 0, 0, 0⟩, some []⟩

/-- A store holding a session that is simultaneously active-with-goal
and inside a break window (`breakUntil = 999999`). -/
def breakStore : Store :=
  ⟨some ⟨false, "light"⟩, some [], some ⟨true, some 0, some goal0, some 999999⟩,
    some ⟨"2026-10-12", 0, 0, 0⟩, some []⟩

/-- A store holding an Idle session. -/
def idleStore : Store :=
  ⟨some ⟨false, "light"⟩, none, some ⟨false, none, none, none⟩, none, none⟩

/-- A store with every key absent. -/
def emptyStore : Store := ⟨none, none, none, none, none⟩

/-- The stats merge `handleNavigation` performs on a blocked commit. -/
def bumpBlocked (s : DailyStats) : DailyStats :=
  { s with blockedAttempts := s.blockedAttempts + 1 }

/-- Whether one whitelist entry matches a URL: its pattern compiles and
the compiled matcher accepts the URL. -/
def matchesCompiled (compile : String → Option (String → Bool))
    (url : String) (p : WhitelistPattern) : Bool :=
  match compilePattern compile p.pattern with
  | none => false
  | some t => t url

/-- The FocusSession invariant: `active = true` implies a goal is set. -/
def sessionInvB (s : FocusSession) : Bool :=
  !s.active || s.currentGoal.isSome

/-- The invariant lifted to the stored (possibly absent) session. -/
def storeInv (st : Store) : Bool :=
  match st.focusSession with
  | none => true
  | some s => sessionInvB s

/-- The session `startFocus` constructs. -/
def startSession (now : Int) (gid text : String) : FocusSession :=
  ⟨true, some now, some ⟨gid, text, now, none⟩, none⟩

/-- A whitelist holding one enabled entry whose pattern is invalid. -/
def badPatterns : List WhitelistPattern :=
  [⟨"p1", "https://[", "Bad", true⟩]

/-- The four protected default ids (the ids of `defaultWhitelist`). -/
def protectedIds : List String :=
  ["chrome-internal", "chrome-extension", "edge-internal", "moz-extension"]

/-- Claim C1 (code evaluation at the failing input): from a Focusing
session started at 0, `completeTask` at time 150000 succeeds, adds
`floor(150000/60000) = 2` focus minutes and one completed task, appends
the goal with `completedAt = 150000` to history, and clears the whole
session — but it stores `breakUntil = none` instead of the
`now + breakDuration*60000` the spec requires (the stored `Settings`
record has no `breakDuration` field at all). -/
theorem completeTask_break_not_granted_eval :
    (completeTask focusingStore 150000 "2026-10-12").1 = true ∧
    (completeTask focusingStore 150000 "2026-10-12").2.stats =
      some ⟨"2026-10-12", 1, 2, 0⟩ ∧
    (completeTask focusingStore 150000 "2026-10-12").2.completedGoals =
      some [⟨"g1", "Write report", 0, some 150000⟩] ∧
    (completeTask focusingStore 150000 "2026-10-12").2.focusSession =
      some ⟨false, none, none, none⟩ := by
  decide

/-- Claim C2 (code evaluation at the failing input): a stored session
with `breakUntil = 999999` in the future of `now = 0` is in the spec's
Break state, yet `shouldBlockUrl` — which never consults `breakUntil` —
still blocks an ordinary URL because `active && currentGoal` holds. -/
theorem break_session_still_blocked_eval :
    breakStore.focusSession = some ⟨true, some 0, some goal0, some 999999⟩ ∧
    (0 : Int) < 999999 ∧
    (shouldBlockUrl noCompile "https://example.com/" breakStore).1 =
      ⟨true, none⟩ := by
  refine ⟨rfl, by norm_num, ?_⟩
  decide

/-- Claim C3 counterexample: `goalText = ""` is empty after trimming,
yet the `START_FOCUS` handler reports success and a new active focus
session (with the empty goal text) is written to the store. -/
theorem empty_goal_accepted_cex :
    strTrim "" = "" ∧
    (startFocusHandler noCompile none emptyStore 0 "id1" "").1.1 = true ∧
    (startFocusHandler noCompile none emptyStore 0 "id1" "").2.1.focusSession =
      some ⟨true, some 0, some ⟨"id1", "", 0, none⟩, none⟩ := by
  decide

/-- Claim C5 counterexample: from an Idle session (not Focusing) with
`strictMode = false`, the `CANCEL_FOCUS` handler still reports success —
the code never checks that the session is in the Focusing state. -/
theorem cancel_succeeds_when_not_focusing_cex :
    idleStore.focusSession = some ⟨false, none, none, none⟩ ∧
    (getSettingsD idleStore).strictMode = false ∧
    (cancelFocusHandler idleStore).1 = true := by
  decide

/-! Preservation lemmas: which storage keys each operation can touch. -/

theorem getFocusSessionD_stats (st : Store) :
    (getFocusSessionD st).2.stats = st.stats := by
  unfold getFocusSessionD
  cases st.focusSession with
  | none => rfl
  | some s => dsimp only; split <;> rfl

theorem getFocusSessionD_whitelist (st : Store) :
    (getFocusSessionD st).2.whitelist = st.whitelist := by
  unfold getFocusSessionD
  cases st.focusSession with
  | none => rfl
  | some s => dsimp only; split <;> rfl

theorem getWhitelistD_stats (st : Store) :
    (getWhitelistD st).2.stats = st.stats := by
  unfold getWhitelistD
  dsimp only
  split <;> rfl

theorem getWhitelistD_focus (st : Store) :
    (getWhitelistD st).2.focusSession = st.focusSession := by
  unfold getWhitelistD
  dsimp only
  split <;> rfl

theorem updateFocusSessionOff_stats (st : Store) :
    (updateFocusSessionOff st).stats = st.stats := by
  rcases hg : getFocusSessionD st with ⟨cur, st1⟩
  have h := getFocusSessionD_stats st
  rw [hg] at h
  simp only [updateFocusSessionOff, hg]
  exact h

theorem shouldBlock_stats (st : Store) :
    (shouldBlock st).2.stats = st.stats := by
  rcases hg : getFocusSessionD st with ⟨session, st1⟩
  have h := getFocusSessionD_stats st
  rw [hg] at h
  unfold shouldBlock
  rw [hg]
  dsimp only
  split
  · exact h
  · split
    · split
      · rw [updateFocusSessionOff_stats]; exact h
      · exact h
    · exact h

theorem shouldBlockUrl_stats (compile : String → Option (String → Bool))
    (url : String) (st : Store) :
    (shouldBlockUrl compile url st).2.stats = st.stats := by
  unfold shouldBlockUrl
  split
  · rfl
  · split
    · rfl
    · split
      · rcases hw : getWhitelistD st with ⟨wl, st1⟩
        have hw2 := getWhitelistD_stats st
        rw [hw] at hw2
        dsimp only
        split
        · exact hw2
        · rcases hb : shouldBlock st1 with ⟨b, st2⟩
          have hb2 := shouldBlock_stats st1
          rw [hb] at hb2
          dsimp only
          split <;> exact hb2.trans hw2
      · rcases hb : shouldBlock st with ⟨b, st1⟩
        have hb2 := shouldBlock_stats st
        rw [hb] at hb2
        dsimp only
        split
        · exact hb2
        · rcases hw : getWhitelistD st1 with ⟨wl, st2⟩
          have hw2 := getWhitelistD_stats st1
          rw [hw] at hw2
          dsimp only
          split <;> exact hw2.trans hb2


theorem handleTabActivated_stats (compile : String → Option (String → Bool))
    (tabs : Int → Option Tab) (tabId : Int) (st : Store) :
    (handleTabActivated compile tabs tabId st).1.stats = st.stats := by
  unfold handleTabActivated
  rcases hb : shouldBlock st with ⟨b, st1⟩
  have hb2 := shouldBlock_stats st
  rw [hb] at hb2
  dsimp only
  split
  · exact hb2
  · cases tabs tabId with
    | none => exact hb2
    | some tab =>
        dsimp only
        cases tab.url with
        | none => exact hb2
        | some u =>
            dsimp only
            split
            · exact hb2
            · rcases hd : shouldBlockUrl compile u st1 with ⟨d, st2⟩
              have hd2 := shouldBlockUrl_stats compile u st1
              rw [hd] at hd2
              dsimp only
              split <;> exact hd2.trans hb2

theorem handleTabUpdate_stats (compile : String → Option (String → Bool))
    (cs cu : Option String) (tab : Tab) (st : Store) :
    (handleTabUpdate compile cs cu tab st).stats = st.stats := by
  unfold handleTabUpdate
  split
  · rfl
  · rcases hb : shouldBlock st with ⟨b, st1⟩
    have hb2 := shouldBlock_stats st
    rw [hb] at hb2
    dsimp only
    split
    · exact hb2
    · split
      · exact hb2
      · cases cu with
        | none => exact hb2
        | some u =>
            dsimp only
            split
            · exact hb2
            · have hd2 := shouldBlockUrl_stats compile u st1
              exact hd2.trans hb2

theorem shouldBlockUrl_reason_no_match (compile : String → Option (String → Bool))
    (url : String) (st : Store) :
    (shouldBlockUrl compile url st).1.reason ≠ some "no-match" := by
  unfold shouldBlockUrl
  split
  · simp
  · split
    · simp
    · split
      · rcases hw : getWhitelistD st with ⟨wl, st1⟩
        dsimp only
        split
        · simp
        · rcases hb : shouldBlock st1 with ⟨b, st2⟩
          dsimp only
          split <;> simp
      · rcases hb : shouldBlock st with ⟨b, st1⟩
        dsimp only
        split
        · simp
        · rcases hw : getWhitelistD st1 with ⟨wl, st2⟩
          dsimp only
          split <;> simp

theorem getStatsD_idem (st : Store) (today : String) :
    getStatsD (getStatsD st today).2 today = getStatsD st today := by
  cases hs : st.stats with
  | none => simp [getStatsD, hs]
  | some s =>
      by_cases hd : s.date = today
      · simp [getStatsD, hs, hd]
      · simp [getStatsD, hs, hd, defaultStats]

/-- Claim C4 counterexample: with a Focusing session and a whitelist
none of whose patterns compile, the decision for an ordinary URL is
blocked with NO reason property — not the reason code `no-match` the
claim requires. -/
theorem no_match_reason_missing_cex :
    (shouldBlockUrl noCompile "https://unrelated.example/" focusingStore).1 =
      ⟨true, none⟩ ∧
    (none : Option String) ≠ some "no-match" := by
  refine ⟨by decide, by decide⟩

/-- Claim C4 (amended): when no higher-precedence rule applies the
decision is blocked with an absent reason code (never `no-match`), and
a blocked main-frame navigation commit bumps `blockedAttempts` of the
(date-rolled) stats record by exactly one; the redundant re-check paths
`handleTabActivated` and `handleTabUpdate` never touch the stats. -/
theorem blockedAttempts_once_per_commit
    (compile : String → Option (String → Bool)) (details : NavDetails)
    (st : Store) (today : String) (tabs : Int → Option Tab) (tabId : Int)
    (cs cu : Option String) (tab : Tab)
    (h0 : details.frameId = 0)
    (hb : (shouldBlockUrl compile details.url st).1.blocked = true) :
    (handleNavigation compile details st today).1.stats =
      some (bumpBlocked (getStatsD (shouldBlockUrl compile details.url st).2 today).1) ∧
    (handleNavigation compile details st today).2 = some (details.tabId, details.url) ∧
    (shouldBlockUrl compile details.url st).1.reason ≠ some "no-match" ∧
    (handleTabActivated compile tabs tabId st).1.stats = st.stats ∧
    (handleTabUpdate compile cs cu tab st).stats = st.stats := by
  refine ⟨?_, ?_, shouldBlockUrl_reason_no_match compile details.url st,
    handleTabActivated_stats compile tabs tabId st,
    handleTabUpdate_stats compile cs cu tab st⟩
  · unfold handleNavigation
    rcases hd : shouldBlockUrl compile details.url st with ⟨d, st1⟩
    rw [hd] at hb
    dsimp only at hb
    rw [h0]
    simp only [ne_eq, not_true_eq_false, if_false, hd, hb, ite_true, reduceIte]
    rcases h2 : getStatsD st1 today with ⟨stats, st2⟩
    have h3 := getStatsD_idem st1 today
    rw [h2] at h3
    rw [h3]
    simp [bumpBlocked]
  · unfold handleNavigation
    rcases hd : shouldBlockUrl compile details.url st with ⟨d, st1⟩
    rw [hd] at hb
    dsimp only at hb
    rw [h0]
    simp only [ne_eq, not_true_eq_false, if_false, hd, hb, ite_true, reduceIte]

/-- Closed witness for the amended C4 theorem at a concrete blocked
commit: one navigation to a non-whitelisted URL during focus takes
`blockedAttempts` from 0 to 1. -/
theorem blockedAttempts_once_per_commit_witness :
    (⟨0, 7, "https://unrelated.example/"⟩ : NavDetails).frameId = 0 ∧
    (shouldBlockUrl noCompile "https://unrelated.example/" focusingStore).1.blocked = true ∧
    (handleNavigation noCompile ⟨0, 7, "https://unrelated.example/"⟩
        focusingStore "2026-10-12").1.stats = some ⟨"2026-10-12", 0, 0, 1⟩ := by
  refine ⟨rfl, by decide, ?_⟩
  have h := (blockedAttempts_once_per_commit noCompile
    ⟨0, 7, "https://unrelated.example/"⟩ focusingStore "2026-10-12"
    (fun _ => none) 3 none none ⟨1, none, true⟩ rfl (by decide)).1
  rw [h]
  decide

/-- Claim C5 (amended): `CANCEL_FOCUS` succeeds exactly when
`strictMode` is off, regardless of the session state: under strict mode
it fails and the whole store (in particular the stored `FocusSession`)
is untouched; otherwise it reports success and resets the session to
the Idle record. -/
theorem cancelFocus_strict_spec (st : Store) :
    cancelFocusHandler st =
      if (getSettingsD st).strictMode then (false, st)
      else (true, { st with focusSession := some ⟨false, none, none, none⟩ }) := by
  by_cases hs : (getSettingsD st).strictMode = true
  · simp [cancelFocusHandler, hs]
  · simp only [Bool.not_eq_true] at hs
    simp [cancelFocusHandler, cancelFocus, updateBadgeRead, getFocusSessionD, hs]

/-- A session for which the self-healing guard `active && !currentGoal`
is off reads back unchanged. -/
theorem getFocusSessionD_of_valid (st : Store) (s : FocusSession)
    (h : st.focusSession = some s)
    (hv : (s.active && s.currentGoal.isNone) = false) :
    getFocusSessionD st = (s, st) := by
  unfold getFocusSessionD
  rw [h]
  simp [hv]

theorem shouldBlock_of_valid (st : Store) (s : FocusSession)
    (h : st.focusSession = some s)
    (hv : (s.active && s.currentGoal.isNone) = false) :
    shouldBlock st = (s.active, st) := by
  unfold shouldBlock
  rw [getFocusSessionD_of_valid st s h hv]
  dsimp only
  cases ha : s.active with
  | false => simp
  | true =>
      rw [ha] at hv
      simp only [Bool.true_and] at hv
      simp [hv]

theorem shouldBlockUrl_focus_of_valid (compile : String → Option (String → Bool))
    (url : String) (st : Store) (s : FocusSession)
    (h : st.focusSession = some s)
    (hv : (s.active && s.currentGoal.isNone) = false) :
    (shouldBlockUrl compile url st).2.focusSession = some s := by
  unfold shouldBlockUrl
  split
  · exact h
  · split
    · exact h
    · split
      · rcases hw : getWhitelistD st with ⟨wl, st1⟩
        have hwf := getWhitelistD_focus st
        rw [hw] at hwf
        have h1 : st1.focusSession = some s := by
          dsimp only at hwf; rw [hwf]; exact h
        dsimp only
        split
        · exact h1
        · rw [shouldBlock_of_valid st1 s h1 hv]
          dsimp only
          split <;> exact h1
      · rw [shouldBlock_of_valid st s h hv]
        dsimp only
        split
        · exact h
        · rcases hw : getWhitelistD st with ⟨wl, st1⟩
          have hwf := getWhitelistD_focus st
          rw [hw] at hwf
          have h1 : st1.focusSession = some s := by
            dsimp only at hwf; rw [hwf]; exact h
          dsimp only
          split <;> exact h1

theorem checkCurrentTab_focus_preserved (compile : String → Option (String → Bool))
    (activeTab : Option Tab) (st : Store) (s : FocusSession)
    (h : st.focusSession = some s)
    (hv : (s.active && s.currentGoal.isNone) = false) :
    (checkCurrentTabOnFocusStart compile activeTab st).1.focusSession = some s := by
  unfold checkCurrentTabOnFocusStart
  cases activeTab with
  | none => exact h
  | some tab =>
      dsimp only
      cases tab.url with
      | none => exact h
      | some u =>
          dsimp only
          split
          · exact h
          · rcases hd : shouldBlockUrl compile u st with ⟨d, st1⟩
            have hf := shouldBlockUrl_focus_of_valid compile u st s h hv
            rw [hd] at hf
            dsimp only
            split <;> exact hf

/-- Claim C3 (amended): `startFocus` performs no validation of
`goalText` — for every text, including one empty after trimming, the
`START_FOCUS` handler reports success and writes an active session
holding that text verbatim; the empty-goal rejection lives only in the
popup UI, which refuses to send the message. -/
theorem startFocus_accepts_any_goalText
    (compile : String → Option (String → Bool)) (activeTab : Option Tab)
    (st : Store) (now : Int) (gid text : String) :
    (startFocusHandler compile activeTab st now gid text).1 =
      (true, startSession now gid text) ∧
    (startFocusHandler compile activeTab st now gid text).2.1.focusSession =
      some (startSession now gid text) := by
  refine ⟨rfl, ?_⟩
  exact checkCurrentTab_focus_preserved compile activeTab
    (updateBadgeRead { st with focusSession := some (startSession now gid text) })
    (startSession now gid text) rfl rfl

theorem shouldBlock_false_of_inactive (st : Store)
    (hin : ∀ s, st.focusSession = some s → s.active = false) :
    shouldBlock st = (false, st) := by
  cases hfs : st.focusSession with
  | none => unfold shouldBlock getFocusSessionD; rw [hfs]; rfl
  | some s =>
      have ha := hin s hfs
      unfold shouldBlock getFocusSessionD
      rw [hfs]
      simp [ha]

theorem shouldBlockUrl_false_of_inactive (compile : String → Option (String → Bool))
    (url : String) (st : Store)
    (hin : ∀ s, st.focusSession = some s → s.active = false) :
    (shouldBlockUrl compile url st).1.blocked = false := by
  unfold shouldBlockUrl
  split
  · rfl
  · split
    · rfl
    · split
      · rcases hw : getWhitelistD st with ⟨wl, st1⟩
        have hwf := getWhitelistD_focus st
        rw [hw] at hwf
        have hin1 : ∀ s, st1.focusSession = some s → s.active = false := by
          intro s hs
          exact hin s (hwf.symm.trans hs)
        dsimp only
        split
        · rfl
        · rw [shouldBlock_false_of_inactive st1 hin1]
          rfl
      · rw [shouldBlock_false_of_inactive st hin]
        rfl

/-- Claim C6: a stored session violating the invariant (`active = true`
with no goal) is self-healed by the next read — the read returns and
writes back `active=false, startedAt=none, breakUntil=none` — and every
block decision taken on the healed store returns `blocked = false`. -/
theorem corrupt_session_read_self_heals
    (compile : String → Option (String → Bool)) (st : Store)
    (s : FocusSession) (url : String)
    (ha : s.active = true) (hg : s.currentGoal = none) :
    (getFocusSessionD { st with focusSession := some s }).1 =
      { s with active := false, startedAt := none, breakUntil := none } ∧
    (getFocusSessionD { st with focusSession := some s }).2.focusSession =
      some { s with active := false, startedAt := none, breakUntil := none } ∧
    (shouldBlockUrl compile url
      (getFocusSessionD { st with focusSession := some s }).2).1.blocked = false := by
  have hread : getFocusSessionD { st with focusSession := some s } =
      ({ s with active := false, startedAt := none, breakUntil := none },
        { st with focusSession := some ({ s with active := false, startedAt := none, breakUntil := none }) }) := by
    unfold getFocusSessionD
    simp [ha, hg]
  refine ⟨by rw [hread], by rw [hread], ?_⟩
  rw [hread]
  apply shouldBlockUrl_false_of_inactive
  intro s2 hs2
  have h3 : some ({ s with active := false, startedAt := none, breakUntil := none }) =
      some s2 := hs2
  injection h3 with h4
  rw [← h4]

/-- Closed witness for C6: healing a concrete corrupt session (active,
no goal, stale `breakUntil`) and checking an ordinary URL afterwards. -/
theorem corrupt_session_read_self_heals_witness :
    (⟨true, some 5, none, some 7⟩ : FocusSession).active = true ∧
    (⟨true, some 5, none, some 7⟩ : FocusSession).currentGoal = none ∧
    (shouldBlockUrl noCompile "https://example.com/"
      (getFocusSessionD
        { emptyStore with focusSession := some ⟨true, some 5, none, some 7⟩ }).2).1.blocked =
      false :=
  ⟨rfl, rfl,
    (corrupt_session_read_self_heals noCompile emptyStore ⟨true, some 5, none, some 7⟩
      "https://example.com/" rfl rfl).2.2⟩

/-- Claim C9: a URL containing the blocked-page resource path is never
blocked (decision `blocked-page`, store untouched), `handleNavigation`
on such a commit performs no redirect and no stats write, and
`handleTabActivated` on a tab already showing the blocked page skips it
without redirecting. -/
theorem blocked_page_idempotent (compile : String → Option (String → Bool))
    (url : String) (st : Store) (details : NavDetails)
    (tabs : Int → Option Tab) (tabId : Int) (tab : Tab) (today : String)
    (h : containsBlockedPage url = true) :
    shouldBlockUrl compile url st = (⟨false, some "blocked-page"⟩, st) ∧
    (details.url = url → handleNavigation compile details st today = (st, none)) ∧
    (tabs tabId = some tab → tab.url = some url →
      (handleTabActivated compile tabs tabId st).2 = none) := by
  have hmain : shouldBlockUrl compile url st = (⟨false, some "blocked-page"⟩, st) := by
    by_cases e1 : url = ""
    · rw [e1] at h
      exact absurd h (by decide)
    · by_cases e2 : url = "about:blank"
      · rw [e2] at h
        exact absurd h (by decide)
      · unfold shouldBlockUrl
        simp [e1, e2, h]
  refine ⟨hmain, ?_, ?_⟩
  · intro he
    unfold handleNavigation
    split
    · rfl
    · rw [he, hmain]
      rfl
  · intro ht hu
    unfold handleTabActivated
    rcases hb : shouldBlock st with ⟨b, st1⟩
    dsimp only
    split
    · rfl
    · rw [ht]
      dsimp only
      rw [hu]
      dsimp only
      split
      · rfl
      · rename_i hcond
        exact absurd (by rw [h]; simp) hcond

/-- Closed witness for C9 on the extension's own blocked-page URL. -/
theorem blocked_page_idempotent_witness :
    containsBlockedPage "chrome-extension://abc/blocked/blocked.html?url=x" = true ∧
    shouldBlockUrl noCompile "chrome-extension://abc/blocked/blocked.html?url=x"
        focusingStore = (⟨false, some "blocked-page"⟩, focusingStore) ∧
    (handleTabActivated noCompile
        (fun _ => some ⟨3, some "chrome-extension://abc/blocked/blocked.html?url=x", true⟩)
        3 focusingStore).2 = none := by
  refine ⟨by decide, ?_, ?_⟩
  · exact (blocked_page_idempotent noCompile
      "chrome-extension://abc/blocked/blocked.html?url=x" focusingStore
      ⟨0, 3, "chrome-extension://abc/blocked/blocked.html?url=x"⟩
      (fun _ => some ⟨3, some "chrome-extension://abc/blocked/blocked.html?url=x", true⟩)
      3 ⟨3, some "chrome-extension://abc/blocked/blocked.html?url=x", true⟩
      "2026-10-12" (by decide)).1
  · exact (blocked_page_idempotent noCompile
      "chrome-extension://abc/blocked/blocked.html?url=x" focusingStore
      ⟨0, 3, "chrome-extension://abc/blocked/blocked.html?url=x"⟩
      (fun _ => some ⟨3, some "chrome-extension://abc/blocked/blocked.html?url=x", true⟩)
      3 ⟨3, some "chrome-extension://abc/blocked/blocked.html?url=x", true⟩
      "2026-10-12" (by decide)).2.2 rfl rfl

theorem getFocusSessionD_result_store (st : Store) :
    (getFocusSessionD st).2.focusSession = none ∨
    (getFocusSessionD st).2.focusSession = some (getFocusSessionD st).1 := by
  unfold getFocusSessionD
  cases hfs : st.focusSession with
  | none => left; exact hfs
  | some s =>
      dsimp only
      split
      · right; rfl
      · right; exact hfs

theorem getFocusSessionD_not_corrupt (st : Store) :
    ((getFocusSessionD st).1.active && (getFocusSessionD st).1.currentGoal.isNone) =
      false := by
  unfold getFocusSessionD
  cases hfs : st.focusSession with
  | none => rfl
  | some s =>
      dsimp only
      split
      · rfl
      · rename_i hcond
        cases hb : (s.active && s.currentGoal.isNone) with
        | false => rfl
        | true => exact absurd hb hcond

/-- Claim C10: every session the state-machine operations write
satisfies `active = true → currentGoal ≠ none`: `startFocus` writes an
active session with a fresh goal, the store after the full
`START_FOCUS` handler still holds it, `completeTask` always leaves an
invariant-satisfying store, and non-strict `cancelFocus` writes the
all-clear record. -/
theorem session_writes_preserve_invariant
    (compile : String → Option (String → Bool)) (activeTab : Option Tab)
    (st : Store) (now : Int) (today : String) (gid text : String) :
    sessionInvB (startFocus st now gid text).1 = true ∧
    storeInv (startFocusHandler compile activeTab st now gid text).2.1 = true ∧
    storeInv (completeTask st now today).2 = true ∧
    ((getSettingsD st).strictMode = false → storeInv (cancelFocus st) = true) := by
  refine ⟨rfl, ?_, ?_, ?_⟩
  · have hp := checkCurrentTab_focus_preserved compile activeTab
      (updateBadgeRead { st with focusSession := some (startSession now gid text) })
      (startSession now gid text) rfl rfl
    have hfs : (startFocusHandler compile activeTab st now gid text).2.1.focusSession =
        some (startSession now gid text) := hp
    unfold storeInv
    rw [hfs]
    rfl
  · rcases hg : getFocusSessionD st with ⟨session, st1⟩
    have hms := getFocusSessionD_result_store st
    have hnc := getFocusSessionD_not_corrupt st
    rw [hg] at hms hnc
    dsimp only at hms hnc
    unfold completeTask
    rw [hg]
    dsimp only
    cases hcg : session.currentGoal with
    | none =>
        dsimp only
        have hact : session.active = false := by
          rw [hcg] at hnc
          simpa using hnc
        rcases hms with hms | hms <;> simp [storeInv, hms, sessionInvB, hact]
    | some g =>
        dsimp only
        split
        · rename_i hna
          have hact : session.active = false := by simpa using hna
          rcases hms with hms | hms <;> simp [storeInv, hms, sessionInvB, hact]
        · rfl
  · intro hs
    unfold cancelFocus
    simp [hs, updateBadgeRead, getFocusSessionD, storeInv, sessionInvB]

/-- Closed witness for C10 at a concrete non-strict store. -/
theorem session_writes_preserve_invariant_witness :
    (getSettingsD focusingStore).strictMode = false ∧
    storeInv (cancelFocus focusingStore) = true :=
  ⟨rfl, (session_writes_preserve_invariant noCompile none focusingStore 0
    "2026-10-12" "id9" "task").2.2.2 rfl⟩

theorem isUrlWhitelistedLog_fst (compile : String → Option (String → Bool))
    (url : String) :
    ∀ ps : List WhitelistPattern,
      (isUrlWhitelistedLog compile url ps).1 =
        ps.any (fun p => p.enabled && matchesCompiled compile url p)
  | [] => rfl
  | p :: rest => by
      by_cases he : p.enabled = true
      · cases hc : compilePattern compile p.pattern with
        | none =>
            simp [isUrlWhitelistedLog, he, hc, matchesCompiled,
              isUrlWhitelistedLog_fst compile url rest]
        | some t =>
            by_cases ht : t url = true
            · simp [isUrlWhitelistedLog, he, hc, matchesCompiled, ht]
            · simp only [Bool.not_eq_true] at ht
              simp [isUrlWhitelistedLog, he, hc, matchesCompiled, ht,
                isUrlWhitelistedLog_fst compile url rest]
      · simp only [Bool.not_eq_true] at he
        simp [isUrlWhitelistedLog, he, matchesCompiled,
          isUrlWhitelistedLog_fst compile url rest]

theorem isUrlWhitelistedLog_snd (compile : String → Option (String → Bool))
    (url : String) :
    ∀ ps : List WhitelistPattern,
      (isUrlWhitelistedLog compile url ps).1 = false →
      (isUrlWhitelistedLog compile url ps).2 =
        (ps.filter
          (fun p => p.enabled && (compilePattern compile p.pattern).isNone)).map
          WhitelistPattern.pattern
  | [], _ => rfl
  | p :: rest, hfalse => by
      by_cases he : p.enabled = true
      · cases hc : compilePattern compile p.pattern with
        | none =>
            have hrest : (isUrlWhitelistedLog compile url rest).1 = false := by
              revert hfalse
              simp [isUrlWhitelistedLog, he, hc]
            simp [isUrlWhitelistedLog, he, hc,
              isUrlWhitelistedLog_snd compile url rest hrest]
        | some t =>
            by_cases ht : t url = true
            · exfalso
              revert hfalse
              simp [isUrlWhitelistedLog, he, hc, ht]
            · simp only [Bool.not_eq_true] at ht
              have hrest : (isUrlWhitelistedLog compile url rest).1 = false := by
                revert hfalse
                simp [isUrlWhitelistedLog, he, hc, ht]
              simp [isUrlWhitelistedLog, he, hc, ht,
                isUrlWhitelistedLog_snd compile url rest hrest]
      · simp only [Bool.not_eq_true] at he
        have hrest : (isUrlWhitelistedLog compile url rest).1 = false := by
          revert hfalse
          simp [isUrlWhitelistedLog, he]
        simp [isUrlWhitelistedLog, he,
          isUrlWhitelistedLog_snd compile url rest hrest]

/-- Claim C8 counterexample: one distinct invalid pattern, two URLs
tested — the `console.warn` for the pattern is emitted on both calls,
i.e. once per URL tested, not once per distinct invalid pattern. -/
theorem invalid_pattern_logged_per_url_cex :
    (isUrlWhitelistedLog noCompile "https://a.example/" badPatterns).2 =
      ["https://["] ∧
    (isUrlWhitelistedLog noCompile "https://b.example/" badPatterns).2 =
      ["https://["] := by
  refine ⟨by decide, by decide⟩

/-- Claim C8 (amended): compilation never throws (an invalid pattern is
the `none` value), the matcher skips invalid patterns — its verdict is
exactly a match of some enabled, compiling pattern — and the warning is
emitted once per invalid enabled pattern per matcher call (so once per
URL tested), not once per distinct invalid pattern. -/
theorem invalid_patterns_skipped (compile : String → Option (String → Bool))
    (url : String) (ps : List WhitelistPattern) :
    (isUrlWhitelistedLog compile url ps).1 =
      ps.any (fun p => p.enabled && matchesCompiled compile url p) ∧
    ((isUrlWhitelistedLog compile url ps).1 = false →
      (isUrlWhitelistedLog compile url ps).2 =
        (ps.filter
          (fun p => p.enabled && (compilePattern compile p.pattern).isNone)).map
          WhitelistPattern.pattern) :=
  ⟨isUrlWhitelistedLog_fst compile url ps, isUrlWhitelistedLog_snd compile url ps⟩

/-- Closed witness for the amended C8 theorem on the invalid-pattern
fixture. -/
theorem invalid_patterns_skipped_witness :
    (isUrlWhitelistedLog noCompile "https://a.example/" badPatterns).2 =
      (badPatterns.filter
        (fun p => p.enabled && (compilePattern noCompile p.pattern).isNone)).map
        WhitelistPattern.pattern :=
  (invalid_patterns_skipped noCompile "https://a.example/" badPatterns).2 (by decide)

theorem normalizeScan_spec :
    ∀ (ps : List WhitelistPattern) (seen : List String),
      (∀ i, i ∈ (normalizeScan seen ps).2.1 ↔
        (i ∈ seen ∨ i ∈ (normalizeScan seen ps).1.map WhitelistPattern.id)) ∧
      ((normalizeScan seen ps).1.map WhitelistPattern.id).Nodup ∧
      (∀ i ∈ (normalizeScan seen ps).1.map WhitelistPattern.id, i ∉ seen)
  | [], seen => by simp [normalizeScan]
  | p :: rest, seen => by
      rw [normalizeScan]
      dsimp only
      split
      · rename_i hc
        obtain ⟨iha, ihb, ihc⟩ := normalizeScan_spec rest seen
        exact ⟨iha, ihb, ihc⟩
      · rename_i hc
        have hu : (migrateEntry p).1.id ∉ seen := by
          intro hmem
          exact hc (List.elem_iff.mpr hmem)
        obtain ⟨iha, ihb, ihc⟩ := normalizeScan_spec rest ((migrateEntry p).1.id :: seen)
        refine ⟨?_, ?_, ?_⟩
        · intro i
          dsimp only
          rw [iha i]
          simp only [List.map_cons, List.mem_cons]
          tauto
        · dsimp only
          simp only [List.map_cons, List.nodup_cons]
          exact ⟨fun hmem => ihc _ hmem (List.mem_cons_self _ _), ihb⟩
        · intro i hi hiseen
          dsimp only at hi
          simp only [List.map_cons, List.mem_cons] at hi
          rcases hi with hi | hi
          · rw [hi] at hiseen
            exact hu hiseen
          · exact ihc i hi (List.mem_cons_of_mem _ hiseen)

theorem addDefaults_spec :
    ∀ (ds : List WhitelistPattern) (seen : List String),
      (∀ i, i ∈ (addDefaults seen ds).2.1 ↔
        (i ∈ seen ∨ i ∈ (addDefaults seen ds).1.map WhitelistPattern.id)) ∧
      ((addDefaults seen ds).1.map WhitelistPattern.id).Nodup ∧
      (∀ i ∈ (addDefaults seen ds).1.map WhitelistPattern.id, i ∉ seen) ∧
      (∀ d ∈ ds, d.id ∈ (addDefaults seen ds).2.1)
  | [], seen => by simp [addDefaults]
  | d :: rest, seen => by
      rw [addDefaults]
      dsimp only
      split
      · rename_i hc
        obtain ⟨iha, ihb, ihc, ihd⟩ := addDefaults_spec rest seen
        refine ⟨iha, ihb, ihc, ?_⟩
        intro e he
        rcases List.mem_cons.mp he with he | he
        · rw [he]
          exact (iha d.id).mpr (Or.inl (List.elem_iff.mp hc))
        · exact ihd e he
      · rename_i hc
        have hu : d.id ∉ seen := by
          intro hmem
          exact hc (List.elem_iff.mpr hmem)
        obtain ⟨iha, ihb, ihc, ihd⟩ := addDefaults_spec rest (d.id :: seen)
        refine ⟨?_, ?_, ?_, ?_⟩
        · intro i
          dsimp only
          rw [iha i]
          simp only [List.map_cons, List.mem_cons]
          tauto
        · dsimp only
          simp only [List.map_cons, List.nodup_cons]
          exact ⟨fun hmem => ihc _ hmem (List.mem_cons_self _ _), ihb⟩
        · intro i hi hiseen
          dsimp only at hi
          simp only [List.map_cons, List.mem_cons] at hi
          rcases hi with hi | hi
          · rw [hi] at hiseen
            exact hu hiseen
          · exact ihc i hi (List.mem_cons_of_mem _ hiseen)
        · intro e he
          rcases List.mem_cons.mp he with he | he
          · rw [he]
            exact (iha d.id).mpr (Or.inl (List.mem_cons_self _ _))
          · exact ihd e he

theorem normalizeWhitelist_ids (stored : Option (List WhitelistPattern)) :
    ((normalizeWhitelist stored).1.map WhitelistPattern.id).Nodup ∧
    ∀ d ∈ defaultWhitelist,
      d.id ∈ (normalizeWhitelist stored).1.map WhitelistPattern.id := by
  cases stored with
  | none => exact ⟨by decide, by decide⟩
  | some l =>
      obtain ⟨sa, sb, sc⟩ := normalizeScan_spec l []
      obtain ⟨aa, ab, ac, ad⟩ := addDefaults_spec defaultWhitelist (normalizeScan [] l).2.1
      have he : (normalizeWhitelist (some l)).1 =
          (normalizeScan [] l).1 ++
            (addDefaults (normalizeScan [] l).2.1 defaultWhitelist).1 := rfl
      rw [he]
      constructor
      · rw [List.map_append, List.nodup_append]
        refine ⟨sb, ab, ?_⟩
        intro i hi1 hi2
        exact ac i hi2 ((sa i).mpr (Or.inr hi1))
      · intro d hd
        rw [List.map_append]
        have h1 := ad d hd
        rcases (aa d.id).mp h1 with h2 | h2
        · rcases (sa d.id).mp h2 with h3 | h3
          · exact absurd h3 (List.not_mem_nil _)
          · exact List.mem_append.mpr (Or.inl h3)
        · exact List.mem_append.mpr (Or.inr h2)

/-- Claim C7: every whitelist value a read observes — among them the
read immediately after any `REMOVE_WHITELIST` — contains the four
protected default ids and no duplicate id. -/
theorem whitelist_reads_keep_protected_defaults (st : Store) (rid : String) :
    (∀ i ∈ protectedIds, i ∈ (getWhitelistD st).1.map WhitelistPattern.id) ∧
    ((getWhitelistD st).1.map WhitelistPattern.id).Nodup ∧
    (∀ i ∈ protectedIds,
      i ∈ (getWhitelistD (removeWhitelistHandler st rid).2).1.map WhitelistPattern.id) ∧
    ((getWhitelistD (removeWhitelistHandler st rid).2).1.map
      WhitelistPattern.id).Nodup := by
  have key : ∀ (stw : Option (List WhitelistPattern)), ∀ i ∈ protectedIds,
      i ∈ (normalizeWhitelist stw).1.map WhitelistPattern.id := by
    intro stw i hi
    have hn := (normalizeWhitelist_ids stw).2
    fin_cases hi
    · exact hn ⟨"chrome-internal", "chrome://*", "Chrome Internal Pages", true⟩ (by decide)
    · exact hn ⟨"chrome-extension", "chrome-extension://*/*", "Chrome Extensions", true⟩
        (by decide)
    · exact hn ⟨"edge-internal", "edge://*", "Edge Internal Pages", true⟩ (by decide)
    · exact hn ⟨"moz-extension", "moz-extension://*/*", "Firefox Extensions", true⟩
        (by decide)
  exact ⟨key st.whitelist, (normalizeWhitelist_ids st.whitelist).1,
    key (removeWhitelistHandler st rid).2.whitelist,
    (normalizeWhitelist_ids (removeWhitelistHandler st rid).2.whitelist).1⟩

/-- Closed witness for C7: after removing the protected id
`chrome-internal`, the next read still returns it. -/
theorem whitelist_defaults_witness :
    "chrome-internal" ∈ protectedIds ∧
    "chrome-internal" ∈
      (getWhitelistD (removeWhitelistHandler focusingStore "chrome-internal").2).1.map
        WhitelistPattern.id :=
  ⟨by decide,
    (whitelist_reads_keep_protected_defaults focusingStore "chrome-internal").2.2.1
      "chrome-internal" (by decide)⟩
